/-
Verification of the BB-Bot TWAP buyback engine.

The repository is a TypeScript trading bot.  We embed its two verified
components shallowly in Lean:

* the TWAP engine (src/twap.ts): order sizing, the per-tick execution
  step, the executed/remaining accounting fold and the running
  volume-weighted average price;
* the Bluefin exchange gateway (bluefin-client.ts): 10^18 fixed-point
  conversion, transient-error classification and the bounded retry loop.

Modelling conventions, stated once here:

* JavaScript decimal strings and `parseFloat` arithmetic are idealized as
  exact rationals (ℚ).  `Number.prototype.toFixed(8)` is the function
  `round8` below: round to the nearest multiple of 10^-8, ties toward
  +infinity, exactly as ECMA-262 specifies ("if there are two such n,
  pick the larger n").
* Wall-clock instants (`Date.now()`, `startTime`, `endTime`) are rational
  millisecond counts passed in explicitly.
* Fallible TypeScript code (`throw` / rejected promises) becomes
  `Except String`.  The outcome of the two gateway calls made inside a
  tick (`getMarketPrice`, `placeOrder`) is an explicit `GatewayOutcome`
  argument to the tick function, covering the price-fetch failure, the
  placement failure and the successful-response cases.
* JS truthiness on the optional response fields (`undefined` and `""`
  are falsy) is modelled by `Option ℚ`: `none` is a missing/empty field.
* The engine's private `isRunning` flag is an explicit `Bool` (`true`
  is the spec's Running state, `false` is Idle/Stopped).
-/
import Mathlib

namespace BBBot

/-! ## Decimal rounding (`toFixed(8)`) -/

/-- `toFixed(8)` from ECMA-262, on exact rationals: the nearest multiple of
10^-8, ties resolved toward +infinity. -/
def round8 (q : ℚ) : ℚ := (⌊q * 100000000 + 1/2⌋ : ℚ) / 100000000

/-- `q` is representable with at most 8 fractional decimal digits. -/
def isMul8 (q : ℚ) : Prop := ∃ k : ℤ, q = (k : ℚ) / 100000000

theorem isMul8_round8 (q : ℚ) : isMul8 (round8 q) := ⟨⌊q * 100000000 + 1/2⌋, rfl⟩

theorem isMul8_zero : isMul8 0 := ⟨0, by norm_num⟩

theorem isMul8_add {a b : ℚ} (ha : isMul8 a) (hb : isMul8 b) : isMul8 (a + b) := by
  obtain ⟨k, hk⟩ := ha
  obtain ⟨l, hl⟩ := hb
  exact ⟨k + l, by push_cast [hk, hl]; ring⟩

theorem isMul8_neg {a : ℚ} (ha : isMul8 a) : isMul8 (-a) := by
  obtain ⟨k, hk⟩ := ha
  exact ⟨-k, by push_cast [hk]; ring⟩

/-- Rounding leaves an exact multiple of 10^-8 unchanged. -/
theorem round8_eq_self {q : ℚ} (h : isMul8 q) : round8 q = q := by
  obtain ⟨k, hk⟩ := h
  subst hk
  unfold round8
  have h1 : ((k : ℚ) / 100000000) * 100000000 + 1/2 = (1/2 : ℚ) + k := by ring
  rw [h1, Int.floor_add_int]
  norm_num

/-- Shifting the argument by an exact multiple of 10^-8 shifts the result. -/
theorem round8_mul8_add {a : ℚ} (ha : isMul8 a) (q : ℚ) :
    round8 (a + q) = a + round8 q := by
  obtain ⟨k, hk⟩ := ha
  subst hk
  unfold round8
  have h1 : ((k : ℚ) / 100000000 + q) * 100000000 + 1/2
      = (q * 100000000 + 1/2) + k := by ring
  rw [h1, Int.floor_add_int]
  push_cast
  ring

/-- The rounding error is at most half an ulp (5·10^-9). -/
theorem abs_round8_sub_le (q : ℚ) : |round8 q - q| ≤ 1 / 200000000 := by
  unfold round8
  have hle : (⌊q * 100000000 + 1/2⌋ : ℚ) ≤ q * 100000000 + 1/2 :=
    Int.floor_le _
  have hgt : q * 100000000 + 1/2 - 1 < (⌊q * 100000000 + 1/2⌋ : ℚ) :=
    Int.sub_one_lt_floor _
  rw [abs_le]
  constructor
  · nlinarith
  · nlinarith

/-! ## Data model (types.ts) -/

/-- Status literals of `OrderExecution` in types.ts.  `partFilled` stands for
the source literal written p-a-r-t-i-a-l (a Lean keyword). -/
inductive OrderStatus where
  | pending
  | filled
  | partFilled
  | failed
deriving DecidableEq, Repr

/-- `OrderExecution` from types.ts.  `filledSize`/`averagePrice` are the
venue-reported optional fields. -/
structure OrderExecution where
  orderId : String
  timestamp : ℚ
  size : ℚ
  price : ℚ
  status : OrderStatus
  filledSize : Option ℚ
  averagePrice : Option ℚ
deriving DecidableEq, Repr

/-- `TWAPState` from types.ts. -/
structure TWAPState where
  totalAmount : ℚ
  remainingAmount : ℚ
  executedAmount : ℚ
  orders : List OrderExecution
  startTime : ℚ
  endTime : ℚ
  averageExecutionPrice : Option ℚ
deriving DecidableEq, Repr

/-- `TWAPConfig` from types.ts; decimal strings idealized as rationals. -/
structure TWAPConfig where
  pair : String
  totalAmount : ℚ
  duration : ℚ
  interval : ℚ
  slippageTolerance : ℚ
  minOrderSize : ℚ
  maxOrderSize : ℚ
deriving DecidableEq, Repr

/-- `BluefinOrderResponse` from types.ts: the venue's duck-typed reply. -/
structure BluefinOrderResponse where
  orderId : String
  status : String
  filledSize : Option ℚ
  averagePrice : Option ℚ
deriving DecidableEq, Repr

/-- The conditions enforced by `validateTWAPConfig` in config.ts. -/
def validConfig (cfg : TWAPConfig) : Prop :=
  0 < cfg.totalAmount ∧ 0 < cfg.duration ∧ 0 < cfg.interval ∧
    cfg.interval ≤ cfg.duration ∧ 0 ≤ cfg.slippageTolerance ∧
    cfg.slippageTolerance ≤ 1 ∧ 0 < cfg.minOrderSize ∧
    0 < cfg.maxOrderSize ∧ cfg.minOrderSize ≤ cfg.maxOrderSize

instance (cfg : TWAPConfig) : Decidable (validConfig cfg) := by
  unfold validConfig
  infer_instance

/-! ## TWAP engine (twap.ts) -/

/-- `initializeState` in twap.ts (`now` is the `Date.now()` value). -/
def initState (cfg : TWAPConfig) (now : ℚ) : TWAPState :=
  ⟨cfg.totalAmount, cfg.totalAmount, 0, [], now, now + cfg.duration * 1000, none⟩

/-- `calculateNumberOfOrders` in twap.ts: `Math.floor(duration / interval)`. -/
def calculateNumberOfOrders (cfg : TWAPConfig) : ℤ :=
  ⌊cfg.duration / cfg.interval⌋

/-- `calculateOrderSize` in twap.ts: the nominal per-order size.  Throws when
the order count is zero; returns the config strings verbatim on a clamp and
the `toFixed(8)` quotient otherwise. -/
def calculateOrderSize (cfg : TWAPConfig) : Except String ℚ :=
  let numberOfOrders := calculateNumberOfOrders cfg
  if numberOfOrders = 0 then
    .error ("Duration must be greater than interval")
  else
    let orderSize := cfg.totalAmount / (numberOfOrders : ℚ)
    if orderSize < cfg.minOrderSize then .ok cfg.minOrderSize
    else if orderSize > cfg.maxOrderSize then .ok cfg.maxOrderSize
    else .ok (round8 orderSize)

/-- The two accounting updates of a successful placement (twap.ts lines
154-162): `f` is the venue-reported `filledSize` or, when that field is
absent, the optimistic requested size.  Returns (executed, remaining). -/
def applyFill (executed remaining f : ℚ) : ℚ × ℚ :=
  (round8 (executed + f), round8 (remaining - f))

/-- The filter of `updateAverageExecutionPrice`: status `filled` AND both
optional fields present (JS truthiness on the strings). -/
def contributes (o : OrderExecution) : Bool :=
  o.status == OrderStatus.filled && o.filledSize.isSome && o.averagePrice.isSome

/-- Loop body of `updateAverageExecutionPrice`: accumulate
(totalValue, totalSize), skipping records with a missing field (the loop
re-checks the fields even though the filter already did). -/
def avgStep (acc : ℚ × ℚ) (o : OrderExecution) : ℚ × ℚ :=
  match o.filledSize, o.averagePrice with
  | some f, some p => (acc.1 + f * p, acc.2 + f)
  | _, _ => acc

/-- `updateAverageExecutionPrice` in twap.ts: volume-weighted mean over the
contributing orders, `toFixed(8)`, left unchanged when there is nothing to
average or the total filled size is zero. -/
def updateAverageExecutionPrice (st : TWAPState) : TWAPState :=
  let filledOrders := st.orders.filter contributes
  if filledOrders.isEmpty then st
  else
    let totals := filledOrders.foldl avgStep ((0 : ℚ), (0 : ℚ))
    if 0 < totals.2 then
      { st with averageExecutionPrice := some (round8 (totals.1 / totals.2)) }
    else st

/-- Outcome of the gateway interactions inside one tick's `try` block. -/
inductive GatewayOutcome where
  /-- `getMarketPrice` rejected (after the gateway's retries). -/
  | priceFail
  /-- price fetched, `placeOrder` rejected; the fetched price is recorded. -/
  | placeFail (price : ℚ)
  /-- price fetched and `placeOrder` resolved with the given response. -/
  | placed (price : ℚ) (resp : BluefinOrderResponse)
deriving DecidableEq, Repr

/-- Result of one tick: the `isRunning` flag after the tick, the state after
the tick, and the size handed to `placeOrder` (`none` when no order was
submitted to the gateway). -/
structure StepRes where
  running : Bool
  st : TWAPState
  submitted : Option ℚ
deriving DecidableEq, Repr

/-- `executeOrder` in twap.ts, one tick.  The only uncaught throw is the
`calculateOrderSize` error (it is raised outside the `try` block); the
price-fetch and placement failures are caught and swallowed. -/
def executeOrder (cfg : TWAPConfig) (running : Bool) (st : TWAPState)
    (now : ℚ) (g : GatewayOutcome) : Except String StepRes :=
  if running = false then .ok ⟨running, st, none⟩
  else if st.remainingAmount ≤ 0 then .ok ⟨false, st, none⟩
  else if st.endTime ≤ now then .ok ⟨false, st, none⟩
  else
    match calculateOrderSize cfg with
    | .error e => .error e
    | .ok calculatedSize =>
      let orderSize := round8 (min calculatedSize st.remainingAmount)
      if orderSize < cfg.minOrderSize ∧ ¬ (1/10000 < st.remainingAmount) then
        .ok ⟨false, st, none⟩
      else
        match g with
        | .priceFail => .ok ⟨running, st, none⟩
        | .placeFail _ => .ok ⟨running, st, some orderSize⟩
        | .placed price resp =>
          let slippageAdjustedPrice := price * (1 + cfg.slippageTolerance)
          let record : OrderExecution :=
            ⟨resp.orderId, now, orderSize, round8 slippageAdjustedPrice,
              (if resp.status = "filled" then .filled else .pending),
              resp.filledSize, resp.averagePrice⟩
          let f := resp.filledSize.getD orderSize
          let amounts := applyFill st.executedAmount st.remainingAmount f
          let st1 : TWAPState :=
            ⟨st.totalAmount, amounts.2, amounts.1, st.orders ++ [record],
              st.startTime, st.endTime, st.averageExecutionPrice⟩
          .ok ⟨running, updateAverageExecutionPrice st1, some orderSize⟩

/-- One timer firing inside a run, threading the engine flag and state (an
uncaught tick error aborts the run and is propagated). -/
def traceStep (cfg : TWAPConfig) (acc : Except String (Bool × TWAPState))
    (inp : ℚ × GatewayOutcome) : Except String (Bool × TWAPState) :=
  match acc with
  | .error e => .error e
  | .ok (b, st) =>
    match executeOrder cfg b st inp.1 inp.2 with
    | .error e => .error e
    | .ok r => .ok (r.running, r.st)

/-- A whole run: `start()` re-initializes the state and sets the flag, then
each element of `inputs` is one timer firing (its `Date.now()` value and the
gateway outcome of that tick). -/
def runTrace (cfg : TWAPConfig) (t0 : ℚ) (inputs : List (ℚ × GatewayOutcome)) :
    Except String (Bool × TWAPState) :=
  inputs.foldl (traceStep cfg) (.ok (true, initState cfg t0))

/-! ## Exchange gateway (bluefin-client.ts) -/

/-- `maxRetries` field of `BluefinClient`. -/
def maxRetries : ℕ := 3

/-- `retryDelay` field of `BluefinClient` (milliseconds). -/
def retryDelay : ℕ := 1000

/-- Does `pat` match `hay` starting at its head? (`String.includes` helper.) -/
def matchesAt (hay pat : List Char) : Bool :=
  match hay, pat with
  | _, [] => true
  | [], _ :: _ => false
  | c :: cs, d :: ds => c == d && matchesAt cs ds

/-- JS `String.prototype.includes`: `pat` occurs somewhere in `hay`. -/
def hasSub (hay pat : List Char) : Bool :=
  match hay with
  | [] => pat.isEmpty
  | _ :: cs => matchesAt hay pat || hasSub cs pat

/-- JS `String.prototype.toLowerCase`, on the ASCII range (all the strings
compared by the gateway's error classifier are ASCII). -/
def lowerChar (c : Char) : Char :=
  if 65 ≤ c.toNat ∧ c.toNat ≤ 90 then Char.ofNat (c.toNat + 32) else c

/-- The transient-failure vocabulary of `isRetryableError`.  The source list
keeps the upper-case Node error codes verbatim even though they are compared
against a lower-cased message. -/
def retryableMessages : List String :=
  ["network", "timeout", "ECONNRESET", "ETIMEDOUT", "ENOTFOUND",
    "rate limit", "503", "502", "500"]

/-- `isRetryableError` in bluefin-client.ts: the lower-cased message contains
one of the vocabulary entries. -/
def isRetryableError (msg : String) : Bool :=
  retryableMessages.any (fun m => hasSub (msg.toList.map lowerChar) m.toList)

/-- The body of `executeWithRetry`, from the attempt numbered `attempt` on,
with `fuel` attempts remaining (`fuel = maxRetries - attempt`).  `fn i` is the
outcome of the i-th invocation of the wrapped call.  Returns the overall
outcome and the list of backoff sleeps performed, in milliseconds. -/
def retryGo (fn : ℕ → Except String α) (attempt : ℕ) :
    ℕ → Except String α × List ℕ
  | 0 => (.error ("Unknown error"), [])
  | fuel + 1 =>
    match fn attempt with
    | .ok v => (.ok v, [])
    | .error e =>
      if isRetryableError e = false ∨ fuel = 0 then (.error e, [])
      else
        let delay := retryDelay * 2 ^ attempt
        let rest := retryGo fn (attempt + 1) fuel
        (rest.1, delay :: rest.2)

/-- `executeWithRetry` in bluefin-client.ts: at most `maxRetries` attempts. -/
def executeWithRetry (fn : ℕ → Except String α) : Except String α × List ℕ :=
  retryGo fn 0 maxRetries

/-- Venue fixed-point scale: `DECIMAL_MULTIPLIER = 10^18`. -/
def DECIMAL_MULTIPLIER : ℤ := 1000000000000000000

/-- `toBluefinAmount` in bluefin-client.ts.  The string argument is idealized
as `Option ℚ`: `none` is a non-numeric string (`parseFloat` gives `NaN`),
`some q` a numeric one with value `q`.  The thrown message interpolates the
input in the source; we keep the constant part. -/
def toBluefinAmount (amount : Option ℚ) : Except String ℤ :=
  match amount with
  | none => .error ("Invalid amount")
  | some q =>
    if q < 0 then .error ("Invalid amount")
    else .ok ⌊q * (DECIMAL_MULTIPLIER : ℚ)⌋

/-- `fromBluefinAmount` in bluefin-client.ts: divide by the same scale. -/
def fromBluefinAmount (n : ℤ) : ℚ :=
  (n : ℚ) / (DECIMAL_MULTIPLIER : ℚ)

/-! ## Reference semantics of `getState` (twap.ts line 257)

`getState()` returns `{ ...this.state }`.  The spread copies every field by
value — but in JavaScript the value of the `orders` field is a *reference* to
the array.  To make that observable we model the heap explicitly: an
`OrdersHeap` maps array references (numbers) to array contents, and the
state record stores the reference, not the contents.  `getStateShallow` is
the literal field-by-field spread. -/

/-- The JS heap restricted to order arrays: reference ↦ contents. -/
def OrdersHeap : Type := ℕ → List OrderExecution

/-- A `TWAPState` as it actually lives in memory: the `orders` field is an
array reference into the heap. -/
structure TWAPStateRef where
  totalAmount : ℚ
  remainingAmount : ℚ
  executedAmount : ℚ
  ordersRef : ℕ
  startTime : ℚ
  endTime : ℚ
  averageExecutionPrice : Option ℚ
deriving DecidableEq, Repr

/-- `getState` in twap.ts: the spread `{ ...this.state }`, field by field.
Scalar fields are copied; `ordersRef` is copied as a reference. -/
def getStateShallow (s : TWAPStateRef) : TWAPStateRef :=
  ⟨s.totalAmount, s.remainingAmount, s.executedAmount, s.ordersRef,
    s.startTime, s.endTime, s.averageExecutionPrice⟩

/-- Dereference an orders array. -/
def readOrders (h : OrdersHeap) (r : ℕ) : List OrderExecution := h r

/-- `array.push(o)` through a reference: mutates the heap cell in place. -/
def pushOrder (h : OrdersHeap) (r : ℕ) (o : OrderExecution) : OrdersHeap :=
  Function.update h r (h r ++ [o])

/-! ## Spec-side definitions

These follow the wording of spec.md (not the source); the claims compare
them with the source-translated functions above. -/

/-- §4.1 order-size derivation in the spec's words: clamp
`totalAmount / floor(duration/interval)` into `[minOrderSize, maxOrderSize]`,
the in-range quotient rounded to 8 fractional digits. -/
def specNominalSize (cfg : TWAPConfig) : ℚ :=
  let n : ℤ := ⌊cfg.duration / cfg.interval⌋
  let raw := cfg.totalAmount / (n : ℚ)
  if raw < cfg.minOrderSize then cfg.minOrderSize
  else if raw > cfg.maxOrderSize then cfg.maxOrderSize
  else round8 raw

/-- Size-weighted mean of `averagePrice` in the spec's words:
Σ(size·price) / Σ size over the given records (missing fields read as 0). -/
def weightedAveragePrice (l : List OrderExecution) : ℚ :=
  (l.map fun o => o.filledSize.getD 0 * o.averagePrice.getD 0).sum
    / (l.map fun o => o.filledSize.getD 0).sum

/-- Every venue-reported fill in the outcome has at most 8 fractional
digits. -/
def outcomeFillsMul8 : GatewayOutcome → Prop
  | .placed _ resp => ∀ f, resp.filledSize = some f → isMul8 f
  | _ => True

/-- The accounting invariant carried through a run: `executedAmount` is an
8-digit decimal, and either the state is still the initial one or both
amounts are 8-digit decimals summing to `totalAmount` within half an ulp. -/
def amountsInv (cfg : TWAPConfig) (st : TWAPState) : Prop :=
  isMul8 st.executedAmount ∧
    ((st.executedAmount = 0 ∧ st.remainingAmount = cfg.totalAmount) ∨
      (isMul8 st.remainingAmount ∧
        |st.executedAmount + st.remainingAmount - cfg.totalAmount|
          ≤ 1 / 200000000))

/-- Observer: the size handed to `placeOrder` by a tick, if any. -/
def submittedOf (r : Except String StepRes) : Option ℚ :=
  match r with
  | .ok s => s.submitted
  | .error _ => none

/-- Observer: the engine flag after a tick. -/
def runningOf (r : Except String StepRes) : Option Bool :=
  match r with
  | .ok s => some s.running
  | .error _ => none

/-- Observer: (executedAmount, remainingAmount) at the end of a run. -/
def traceAmounts (r : Except String (Bool × TWAPState)) : Option (ℚ × ℚ) :=
  match r with
  | .ok p => some (p.2.executedAmount, p.2.remainingAmount)
  | .error _ => none

/-! ## Helper lemmas -/

/-- A valid config yields at least one order. -/
theorem one_le_numberOfOrders (cfg : TWAPConfig) (h : validConfig cfg) :
    1 ≤ calculateNumberOfOrders cfg := by
  obtain ⟨-, -, h3, h4, -⟩ := h
  unfold calculateNumberOfOrders
  rw [Int.le_floor]
  push_cast
  rw [le_div_iff₀ h3]
  linarith

/-- Under a valid config `calculateOrderSize` cannot throw, and it computes
exactly the spec's clamped nominal size. -/
theorem calculateOrderSize_ok (cfg : TWAPConfig) (h : validConfig cfg) :
    calculateOrderSize cfg = .ok (specNominalSize cfg) := by
  have hn := one_le_numberOfOrders cfg h
  have hn0 : ¬ calculateNumberOfOrders cfg = 0 := by omega
  unfold calculateOrderSize specNominalSize calculateNumberOfOrders at *
  simp only [if_neg hn0]
  split_ifs <;> rfl

/-- `updateAverageExecutionPrice` changes only `averageExecutionPrice`. -/
theorem updateAvg_frame (st : TWAPState) :
    (updateAverageExecutionPrice st).executedAmount = st.executedAmount ∧
    (updateAverageExecutionPrice st).remainingAmount = st.remainingAmount ∧
    (updateAverageExecutionPrice st).totalAmount = st.totalAmount ∧
    (updateAverageExecutionPrice st).orders = st.orders := by
  unfold updateAverageExecutionPrice
  dsimp only
  split
  · exact ⟨rfl, rfl, rfl, rfl⟩
  · split
    · exact ⟨rfl, rfl, rfl, rfl⟩
    · exact ⟨rfl, rfl, rfl, rfl⟩

/-- One accounting fold preserves the run invariant, provided the folded
amount is an 8-digit decimal. -/
theorem applyFill_inv {e r total f : ℚ} (hf : isMul8 f) (he : isMul8 e)
    (hc : (e = 0 ∧ r = total) ∨
      (isMul8 r ∧ |e + r - total| ≤ 1 / 200000000)) :
    isMul8 (applyFill e r f).1 ∧ isMul8 (applyFill e r f).2 ∧
      |(applyFill e r f).1 + (applyFill e r f).2 - total| ≤ 1 / 200000000 := by
  unfold applyFill
  dsimp only
  rcases hc with ⟨he0, hr0⟩ | ⟨hr, hsum⟩
  · have h1 : round8 (e + f) = f := by
      rw [he0, zero_add]
      exact round8_eq_self hf
    have h2 : round8 (r - f) = -f + round8 total := by
      have h3 := round8_mul8_add (isMul8_neg hf) total
      rw [neg_add_eq_sub] at h3
      rw [hr0]
      exact h3
    rw [h1, h2]
    refine ⟨hf, isMul8_add (isMul8_neg hf) (isMul8_round8 total), ?_⟩
    have heq : f + (-f + round8 total) - total = round8 total - total := by ring
    rw [heq]
    exact abs_round8_sub_le total
  · have h1 : round8 (e + f) = e + f := round8_eq_self (isMul8_add he hf)
    have h2 : round8 (r - f) = r - f := by
      have h3 : r - f = r + -f := by ring
      rw [h3]
      exact round8_eq_self (isMul8_add hr (isMul8_neg hf))
    rw [h1, h2]
    refine ⟨isMul8_add he hf, ?_, ?_⟩
    · rw [sub_eq_add_neg]
      exact isMul8_add hr (isMul8_neg hf)
    · have heq : e + f + (r - f) - total = e + r - total := by ring
      rw [heq]
      exact hsum

/-- Every order record in the state has status pending or filled. -/
def ordersStatusOk (st : TWAPState) : Prop :=
  ∀ o ∈ st.orders, o.status = OrderStatus.pending ∨ o.status = OrderStatus.filled

/-- One tick preserves the accounting invariant, provided any venue-reported
fill has at most 8 fractional digits. -/
theorem executeOrder_amountsInv {cfg : TWAPConfig} {b b2 : Bool}
    {st st2 : TWAPState} {now : ℚ} {g : GatewayOutcome} {sub : Option ℚ}
    (hg : outcomeFillsMul8 g) (hinv : amountsInv cfg st)
    (h : executeOrder cfg b st now g = .ok ⟨b2, st2, sub⟩) :
    amountsInv cfg st2 := by
  simp only [executeOrder] at h
  split at h
  · obtain ⟨-, h2, -⟩ := by simpa only [Except.ok.injEq, StepRes.mk.injEq] using h
    rw [← h2]
    exact hinv
  · split at h
    · obtain ⟨-, h2, -⟩ := by simpa only [Except.ok.injEq, StepRes.mk.injEq] using h
      rw [← h2]
      exact hinv
    · split at h
      · obtain ⟨-, h2, -⟩ := by simpa only [Except.ok.injEq, StepRes.mk.injEq] using h
        rw [← h2]
        exact hinv
      · split at h
        · exact absurd h (by simp)
        · rename_i c hceq
          split at h
          · obtain ⟨-, h2, -⟩ := by
              simpa only [Except.ok.injEq, StepRes.mk.injEq] using h
            rw [← h2]
            exact hinv
          · split at h
            · obtain ⟨-, h2, -⟩ := by
                simpa only [Except.ok.injEq, StepRes.mk.injEq] using h
              rw [← h2]
              exact hinv
            · obtain ⟨-, h2, -⟩ := by
                simpa only [Except.ok.injEq, StepRes.mk.injEq] using h
              rw [← h2]
              exact hinv
            · rename_i price resp
              obtain ⟨-, h2, -⟩ := by
                simpa only [Except.ok.injEq, StepRes.mk.injEq] using h
              rw [← h2]
              have hf : isMul8
                  (resp.filledSize.getD (round8 (min c st.remainingAmount))) := by
                cases hfs : resp.filledSize with
                | none => simpa [hfs] using isMul8_round8 (min c st.remainingAmount)
                | some f0 => simpa [hfs] using hg f0 hfs
              have hstep := applyFill_inv hf hinv.1 hinv.2
              obtain ⟨hA, hB, -, -⟩ := updateAvg_frame
                ⟨st.totalAmount,
                  (applyFill st.executedAmount st.remainingAmount
                    (resp.filledSize.getD (round8 (min c st.remainingAmount)))).2,
                  (applyFill st.executedAmount st.remainingAmount
                    (resp.filledSize.getD (round8 (min c st.remainingAmount)))).1,
                  st.orders ++
                    [⟨resp.orderId, now, round8 (min c st.remainingAmount),
                      round8 (price * (1 + cfg.slippageTolerance)),
                      (if resp.status = "filled" then .filled else .pending),
                      resp.filledSize, resp.averagePrice⟩],
                  st.startTime, st.endTime, st.averageExecutionPrice⟩
              refine ⟨?_, Or.inr ⟨?_, ?_⟩⟩
              · rw [hA]
                exact hstep.1
              · rw [hB]
                exact hstep.2.1
              · rw [hA, hB]
                exact hstep.2.2

/-- One tick appends at most one record, and that record's status is pending
or filled. -/
theorem executeOrder_statusOk {cfg : TWAPConfig} {b b2 : Bool}
    {st st2 : TWAPState} {now : ℚ} {g : GatewayOutcome} {sub : Option ℚ}
    (hinv : ordersStatusOk st)
    (h : executeOrder cfg b st now g = .ok ⟨b2, st2, sub⟩) :
    ordersStatusOk st2 := by
  simp only [executeOrder] at h
  split at h
  · obtain ⟨-, h2, -⟩ := by simpa only [Except.ok.injEq, StepRes.mk.injEq] using h
    rw [← h2]
    exact hinv
  · split at h
    · obtain ⟨-, h2, -⟩ := by simpa only [Except.ok.injEq, StepRes.mk.injEq] using h
      rw [← h2]
      exact hinv
    · split at h
      · obtain ⟨-, h2, -⟩ := by simpa only [Except.ok.injEq, StepRes.mk.injEq] using h
        rw [← h2]
        exact hinv
      · split at h
        · exact absurd h (by simp)
        · rename_i c hceq
          split at h
          · obtain ⟨-, h2, -⟩ := by
              simpa only [Except.ok.injEq, StepRes.mk.injEq] using h
            rw [← h2]
            exact hinv
          · split at h
            · obtain ⟨-, h2, -⟩ := by
                simpa only [Except.ok.injEq, StepRes.mk.injEq] using h
              rw [← h2]
              exact hinv
            · obtain ⟨-, h2, -⟩ := by
                simpa only [Except.ok.injEq, StepRes.mk.injEq] using h
              rw [← h2]
              exact hinv
            · rename_i price resp
              obtain ⟨-, h2, -⟩ := by
                simpa only [Except.ok.injEq, StepRes.mk.injEq] using h
              rw [← h2]
              intro o ho
              obtain ⟨-, -, -, hD⟩ := updateAvg_frame
                ⟨st.totalAmount,
                  (applyFill st.executedAmount st.remainingAmount
                    (resp.filledSize.getD (round8 (min c st.remainingAmount)))).2,
                  (applyFill st.executedAmount st.remainingAmount
                    (resp.filledSize.getD (round8 (min c st.remainingAmount)))).1,
                  st.orders ++
                    [⟨resp.orderId, now, round8 (min c st.remainingAmount),
                      round8 (price * (1 + cfg.slippageTolerance)),
                      (if resp.status = "filled" then .filled else .pending),
                      resp.filledSize, resp.averagePrice⟩],
                  st.startTime, st.endTime, st.averageExecutionPrice⟩
              rw [hD] at ho
              rcases List.mem_append.mp ho with hmem | hmem
              · exact hinv o hmem
              · have ho2 := List.mem_singleton.mp hmem
                rw [ho2]
                dsimp only
                split
                · exact Or.inr rfl
                · exact Or.inl rfl

/-- A run that started from an error input stays an error. -/
theorem foldl_traceStep_error (cfg : TWAPConfig)
    (inputs : List (ℚ × GatewayOutcome)) (e : String) :
    inputs.foldl (traceStep cfg) (.error e) = .error e := by
  induction inputs with
  | nil => rfl
  | cons inp t ih => simpa [List.foldl_cons, traceStep] using ih

/-- Trace induction for the accounting invariant. -/
theorem foldl_traceStep_amountsInv (cfg : TWAPConfig) :
    ∀ (inputs : List (ℚ × GatewayOutcome)) (b0 : Bool) (st0 : TWAPState)
      (b : Bool) (st : TWAPState),
      amountsInv cfg st0 → (∀ inp ∈ inputs, outcomeFillsMul8 inp.2) →
      inputs.foldl (traceStep cfg) (.ok (b0, st0)) = .ok (b, st) →
      amountsInv cfg st := by
  intro inputs
  induction inputs with
  | nil =>
    intro b0 st0 b st h0 _ h
    obtain ⟨-, h2⟩ := by simpa only [List.foldl_nil, Except.ok.injEq,
      Prod.mk.injEq] using h
    rw [← h2]
    exact h0
  | cons inp t ih =>
    intro b0 st0 b st h0 hall h
    rw [List.foldl_cons] at h
    cases hex : executeOrder cfg b0 st0 inp.1 inp.2 with
    | error e =>
      rw [show traceStep cfg (.ok (b0, st0)) inp = .error e by
        simp [traceStep, hex]] at h
      exact absurd (h ▸ foldl_traceStep_error cfg t e) (by simp)
    | ok r =>
      rw [show traceStep cfg (.ok (b0, st0)) inp = .ok (r.running, r.st) by
        simp [traceStep, hex]] at h
      have hr : amountsInv cfg r.st :=
        executeOrder_amountsInv (hall inp (List.mem_cons_self inp t)) h0 hex
      exact ih r.running r.st b st hr
        (fun i hi => hall i (List.mem_cons_of_mem inp hi)) h

/-- Trace induction for the status invariant. -/
theorem foldl_traceStep_statusOk (cfg : TWAPConfig) :
    ∀ (inputs : List (ℚ × GatewayOutcome)) (b0 : Bool) (st0 : TWAPState)
      (b : Bool) (st : TWAPState),
      ordersStatusOk st0 →
      inputs.foldl (traceStep cfg) (.ok (b0, st0)) = .ok (b, st) →
      ordersStatusOk st := by
  intro inputs
  induction inputs with
  | nil =>
    intro b0 st0 b st h0 h
    obtain ⟨-, h2⟩ := by simpa only [List.foldl_nil, Except.ok.injEq,
      Prod.mk.injEq] using h
    rw [← h2]
    exact h0
  | cons inp t ih =>
    intro b0 st0 b st h0 h
    rw [List.foldl_cons] at h
    cases hex : executeOrder cfg b0 st0 inp.1 inp.2 with
    | error e =>
      rw [show traceStep cfg (.ok (b0, st0)) inp = .error e by
        simp [traceStep, hex]] at h
      exact absurd (h ▸ foldl_traceStep_error cfg t e) (by simp)
    | ok r =>
      rw [show traceStep cfg (.ok (b0, st0)) inp = .ok (r.running, r.st) by
        simp [traceStep, hex]] at h
      exact ih r.running r.st b st (executeOrder_statusOk h0 hex) h

/-- Evaluation of one tick that reaches the `try` block (guards pass, the
sub-minimum stop is not taken), for each gateway outcome. -/
theorem executeOrder_try_eval (cfg : TWAPConfig) (st : TWAPState) (now c : ℚ)
    (hrem : 0 < st.remainingAmount) (htime : now < st.endTime)
    (hcalc : calculateOrderSize cfg = .ok c)
    (hgo : ¬(round8 (min c st.remainingAmount) < cfg.minOrderSize ∧
      ¬ 1/10000 < st.remainingAmount)) :
    executeOrder cfg true st now .priceFail = .ok ⟨true, st, none⟩ ∧
    (∀ price, executeOrder cfg true st now (.placeFail price)
      = .ok ⟨true, st, some (round8 (min c st.remainingAmount))⟩) ∧
    (∀ price resp,
      submittedOf (executeOrder cfg true st now (.placed price resp))
        = some (round8 (min c st.remainingAmount)) ∧
      runningOf (executeOrder cfg true st now (.placed price resp))
        = some true) := by
  have hstep : ∀ g : GatewayOutcome,
      executeOrder cfg true st now g =
        (match g with
        | .priceFail => .ok ⟨true, st, none⟩
        | .placeFail _ => .ok ⟨true, st, some (round8 (min c st.remainingAmount))⟩
        | .placed price resp =>
          .ok ⟨true,
            updateAverageExecutionPrice
              ⟨st.totalAmount,
                (applyFill st.executedAmount st.remainingAmount
                  (resp.filledSize.getD (round8 (min c st.remainingAmount)))).2,
                (applyFill st.executedAmount st.remainingAmount
                  (resp.filledSize.getD (round8 (min c st.remainingAmount)))).1,
                st.orders ++
                  [⟨resp.orderId, now, round8 (min c st.remainingAmount),
                    round8 (price * (1 + cfg.slippageTolerance)),
                    (if resp.status = "filled" then .filled else .pending),
                    resp.filledSize, resp.averagePrice⟩],
                st.startTime, st.endTime, st.averageExecutionPrice⟩,
            some (round8 (min c st.remainingAmount))⟩) := by
    intro g
    simp only [executeOrder, hcalc]
    rw [if_neg (by simp), if_neg (not_le.mpr hrem), if_neg (not_le.mpr htime),
      if_neg hgo]
  refine ⟨hstep .priceFail, fun price => hstep (.placeFail price), ?_⟩
  intro price resp
  rw [hstep (.placed price resp)]
  exact ⟨rfl, rfl⟩

/-! ## Claim C3: size of the final tick -/

/-- Concrete config for the C3 counterexample: `totalAmount` has 9 fractional
digits (the string "0.000100006"). -/
def cfgC3 : TWAPConfig :=
  ⟨"ALKIMI/USDC", 100006/1000000000, 10, 10, 0, 10, 100⟩

/-- A venue response that reports nothing filled. -/
def respC3 : BluefinOrderResponse := ⟨"o1", "pending", none, none⟩

/-- C3, counterexample.  The claim says the final-tick submitted size equals
`remainingAmount` and never exceeds it.  With `totalAmount = 0.000100006`
(more than 8 fractional digits, explicitly covered by the claim) the first
tick submits `toFixed(8)` of the remainder, `0.00010001`, which is strictly
greater than the remaining amount `0.000100006`. -/
theorem c3_submit_exceeds_remaining_cex :
    submittedOf (executeOrder cfgC3 true (initState cfgC3 0) 0
        (.placed 1 respC3))
      = some (10001/100000000) ∧
    (initState cfgC3 0).remainingAmount < 10001/100000000 := by
  constructor
  · have h := (executeOrder_try_eval cfgC3 (initState cfgC3 0) 0 10
      (by norm_num [initState, cfgC3])
      (by norm_num [initState, cfgC3])
      (by norm_num [calculateOrderSize, calculateNumberOfOrders, cfgC3])
      (by norm_num [initState, cfgC3, min_def, round8])).2.2 1 respC3
    rw [h.1]
    norm_num [initState, cfgC3, min_def, round8]
  · norm_num [initState, cfgC3]

/-- C3, amended.  The size submitted on a tick where the remainder is below
the nominal size is `round8 remainingAmount`: it equals `remainingAmount`
exactly whenever the remainder has at most 8 fractional digits (in
particular whenever `totalAmount` does), but a remainder with more digits is
rounded, and rounding up may exceed the remainder by up to half an ulp. -/
theorem c3_final_tick_size (cfg : TWAPConfig) (st : TWAPState)
    (now c price : ℚ) (resp : BluefinOrderResponse)
    (hrem : 0 < st.remainingAmount) (htime : now < st.endTime)
    (hcalc : calculateOrderSize cfg = .ok c)
    (hlt : st.remainingAmount ≤ c) (hm8 : isMul8 st.remainingAmount)
    (hgo : ¬(st.remainingAmount < cfg.minOrderSize ∧
      ¬ 1/10000 < st.remainingAmount)) :
    submittedOf (executeOrder cfg true st now (.placed price resp))
      = some st.remainingAmount := by
  have hsize : round8 (min c st.remainingAmount) = st.remainingAmount := by
    rw [min_eq_right hlt]
    exact round8_eq_self hm8
  have h := (executeOrder_try_eval cfg st now c hrem htime hcalc
    (by rw [hsize]; exact hgo)).2.2 price resp
  rw [h.1, hsize]

/-- C3 witness: a final tick with remainder `0.5`, an 8-digit decimal below
the nominal size `83.33333333`, submits exactly `0.5`. -/
def stC3W : TWAPState := ⟨1000, 1/2, 9995/10, [], 0, 3600000, none⟩

/-- Config for the C3 witness (the spec's worked example). -/
def cfgC3W : TWAPConfig := ⟨"ALKIMI/USDC", 1000, 3600, 300, 1/100, 10, 100⟩

theorem c3_final_tick_size_witness :
    submittedOf (executeOrder cfgC3W true stC3W 0 (.placed 1 respC3))
      = some stC3W.remainingAmount :=
  c3_final_tick_size cfgC3W stC3W 0 (8333333333/100000000) 1 respC3
    (by norm_num [stC3W])
    (by norm_num [stC3W])
    (by norm_num [calculateOrderSize, calculateNumberOfOrders, round8, cfgC3W])
    (by norm_num [stC3W])
    ⟨50000000, by norm_num [stC3W]⟩
    (by norm_num [stC3W, cfgC3W])

/-! ## Claim C4: failed ticks -/

/-- The spec's worked-example config, used for the C4 counterexample. -/
def cfgC4 : TWAPConfig := ⟨"ALKIMI/USDC", 1000, 3600, 300, 1/100, 10, 100⟩

/-- C4, counterexample.  The claim says the failed order's `pending` record
remains appended in the orders history.  In the source the record is pushed
only *after* `placeOrder` resolves (twap.ts line 152 is inside the `try`,
after the `await`), so a failed placement leaves the history untouched: the
tick below fails at `placeOrder`, the resulting state is exactly the initial
state, and its orders history is empty. -/
theorem c4_no_pending_record_cex :
    executeOrder cfgC4 true (initState cfgC4 0) 0 (.placeFail 1)
      = .ok ⟨true, initState cfgC4 0, some (8333333333/100000000)⟩ ∧
    (initState cfgC4 0).orders = [] := by
  constructor
  · have h := (executeOrder_try_eval cfgC4 (initState cfgC4 0) 0
      (8333333333/100000000)
      (by norm_num [initState, cfgC4])
      (by norm_num [initState, cfgC4])
      (by norm_num [calculateOrderSize, calculateNumberOfOrders, round8, cfgC4])
      (by norm_num [initState, cfgC4, min_def, round8])).2.1 1
    rw [h]
    norm_num [initState, cfgC4, min_def, round8]
  · rfl

/-- C4, amended.  When the price fetch or the order placement of a tick
fails, the run is indeed not halted — the engine stays Running and the state
is untouched, so the next scheduled tick proceeds — but *no* record of the
failed attempt is appended to the orders history (the pending record only
exists in a local variable that is discarded with the caught exception). -/
theorem c4_failed_tick_continues (cfg : TWAPConfig) (st : TWAPState)
    (now c : ℚ)
    (hrem : 0 < st.remainingAmount) (htime : now < st.endTime)
    (hcalc : calculateOrderSize cfg = .ok c)
    (hgo : ¬(round8 (min c st.remainingAmount) < cfg.minOrderSize ∧
      ¬ 1/10000 < st.remainingAmount)) :
    executeOrder cfg true st now .priceFail = .ok ⟨true, st, none⟩ ∧
    ∀ price, executeOrder cfg true st now (.placeFail price)
      = .ok ⟨true, st, some (round8 (min c st.remainingAmount))⟩ := by
  have h := executeOrder_try_eval cfg st now c hrem htime hcalc hgo
  exact ⟨h.1, h.2.1⟩

theorem c4_failed_tick_continues_witness :
    executeOrder cfgC4 true (initState cfgC4 0) 0 .priceFail
      = .ok ⟨true, initState cfgC4 0, none⟩ :=
  (c4_failed_tick_continues cfgC4 (initState cfgC4 0) 0 (8333333333/100000000)
    (by norm_num [initState, cfgC4])
    (by norm_num [initState, cfgC4])
    (by norm_num [calculateOrderSize, calculateNumberOfOrders, round8, cfgC4])
    (by norm_num [initState, cfgC4, min_def, round8])).1

/-! ## Claim C5: sub-negligible remainder -/

/-- C5, amended.  A tick stops the engine with no order submitted exactly
when the computed 8-digit order size is below `minOrderSize` *and* the
remainder is at most 0.0001.  For `0 < remainingAmount < 0.0001` this is the
case whenever the rounded `min(nominalSize, remainingAmount)` is still below
`minOrderSize`; a config whose `minOrderSize` is itself at most the rounded
remainder instead submits the tiny remainder as an order (see the
counterexample). -/
theorem c5_small_remainder_stops (cfg : TWAPConfig) (st : TWAPState)
    (now c : ℚ) (g : GatewayOutcome)
    (hrem : 0 < st.remainingAmount) (hsmall : st.remainingAmount ≤ 1/10000)
    (htime : now < st.endTime)
    (hcalc : calculateOrderSize cfg = .ok c)
    (hstop : round8 (min c st.remainingAmount) < cfg.minOrderSize) :
    executeOrder cfg true st now g = .ok ⟨false, st, none⟩ := by
  simp only [executeOrder, hcalc]
  rw [if_neg (by simp), if_neg (not_le.mpr hrem), if_neg (not_le.mpr htime),
    if_pos ⟨hstop, not_lt.mpr hsmall⟩]

/-- Config for the C5 counterexample: `minOrderSize = 0.00005 < 0.0001`. -/
def cfgC5 : TWAPConfig := ⟨"ALKIMI/USDC", 1/12500, 10, 10, 0, 1/20000, 100⟩

/-- A fully-filling venue response for the C5 counterexample. -/
def respC5 : BluefinOrderResponse := ⟨"o1", "filled", some (1/12500), some 1⟩

/-- C5, counterexample.  The claim says every tick starting with
`0 < remainingAmount < 0.0001` stops the engine and submits nothing, even
when `minOrderSize < 0.0001`.  With `minOrderSize = 0.00005` and remaining
amount `0.00008 < 0.0001`, the computed size `0.00008` is *not* below
`minOrderSize`, so the sub-minimum stop branch is never reached: the tick
submits an order of `0.00008` and the engine keeps running. -/
theorem c5_small_remainder_cex :
    (initState cfgC5 0).remainingAmount = 1/12500 ∧
    ((1:ℚ)/12500 < 1/10000) ∧
    submittedOf (executeOrder cfgC5 true (initState cfgC5 0) 0
        (.placed 1 respC5))
      = some (1/12500) ∧
    runningOf (executeOrder cfgC5 true (initState cfgC5 0) 0
        (.placed 1 respC5))
      = some true := by
  have h := (executeOrder_try_eval cfgC5 (initState cfgC5 0) 0 (1/12500)
    (by norm_num [initState, cfgC5])
    (by norm_num [initState, cfgC5])
    (by norm_num [calculateOrderSize, calculateNumberOfOrders, round8, cfgC5])
    (by norm_num [initState, cfgC5, min_def, round8])).2.2 1 respC5
  refine ⟨by norm_num [initState, cfgC5], by norm_num, ?_, ?_⟩
  · rw [h.1]
    norm_num [initState, cfgC5, min_def, round8]
  · rw [h.2]

/-- State for the C5 witness: remainder `0.00005`, below the 0.0001
threshold, with a conventional `minOrderSize = 10` config. -/
def stC5W : TWAPState := ⟨1000, 1/20000, 99995/100, [], 0, 3600000, none⟩

/-- Config for the C5 witness. -/
def cfgC5W : TWAPConfig := ⟨"ALKIMI/USDC", 1000, 3600, 300, 0, 10, 100⟩

theorem c5_small_remainder_stops_witness :
    executeOrder cfgC5W true stC5W 0 (.placed 1 respC3)
      = .ok ⟨false, stC5W, none⟩ :=
  c5_small_remainder_stops cfgC5W stC5W 0 (8333333333/100000000)
    (.placed 1 respC3)
    (by norm_num [stC5W])
    (by norm_num [stC5W])
    (by norm_num [stC5W])
    (by norm_num [calculateOrderSize, calculateNumberOfOrders, round8, cfgC5W])
    (by norm_num [stC5W, cfgC5W, min_def, round8])

/-! ## Claim C1: the accounting invariant -/

/-- Config for the C1 theorems: 100 ticks of nominal size 0.01. -/
def cfgC1 : TWAPConfig := ⟨"ALKIMI/USDC", 1, 100, 1, 0, 1/1000, 1⟩

/-- A venue response whose reported fill `0.000000005` has 9 fractional
digits — exactly half an ulp of the 8-digit bookkeeping grid. -/
def respC1 : BluefinOrderResponse :=
  ⟨"o1", "filled", some (1/200000000), some 1⟩

/-- C1, counterexample.  `toFixed(8)` rounds ties upward, so folding the
venue-reported fill `0.000000005` adds `0.00000001` to `executedAmount`
while leaving `remainingAmount` unchanged.  After two such successful ticks
`executedAmount + remainingAmount = 1.00000002`, which differs from
`totalAmount = 1` by `2e-8 > 1e-8`: the invariant fails at the stated
tolerance. -/
theorem c1_accounting_invariant_cex :
    traceAmounts (runTrace cfgC1 0
        [(0, .placed 1 respC1), (1000, .placed 1 respC1)])
      = some (1/50000000, 1) ∧
    ¬ (|(1:ℚ)/50000000 + 1 - cfgC1.totalAmount| ≤ 1/100000000) := by
  constructor
  · norm_num [runTrace, traceStep, traceAmounts, executeOrder,
      calculateOrderSize, calculateNumberOfOrders, initState, round8,
      applyFill, updateAverageExecutionPrice, contributes, avgStep,
      min_def, cfgC1, respC1]
  · norm_num [cfgC1]
    rw [abs_of_pos (by norm_num)]
    norm_num

/-- C1, amended.  Starting from the initialized state
(`executedAmount = 0`, `remainingAmount = totalAmount`), the invariant
`|executedAmount + remainingAmount - totalAmount| ≤ 1e-8` holds after every
tick of a run — for both fold branches (venue-reported `filledSize` and the
optimistic requested size) — **provided** every venue-reported fill has at
most 8 fractional digits.  (The optimistic branch always satisfies this,
since the requested size is itself `toFixed(8)` output; only finer-grained
venue fills can breach the tolerance, as the counterexample shows.) -/
theorem c1_accounting_invariant (cfg : TWAPConfig) (t0 : ℚ)
    (inputs : List (ℚ × GatewayOutcome)) (b : Bool) (st : TWAPState)
    (hfills : ∀ inp ∈ inputs, outcomeFillsMul8 inp.2)
    (h : runTrace cfg t0 inputs = .ok (b, st)) :
    |st.executedAmount + st.remainingAmount - cfg.totalAmount|
      ≤ 1/100000000 := by
  have hinv := foldl_traceStep_amountsInv cfg inputs true (initState cfg t0)
    b st ⟨isMul8_zero, Or.inl ⟨rfl, rfl⟩⟩ hfills h
  rcases hinv.2 with ⟨h0, hr⟩ | ⟨-, hb⟩
  · rw [h0, hr]
    simp
  · exact hb.trans (by norm_num)

/-- Venue response for the C1 witness: fill `0.00000001`, on the grid. -/
def respC1W : BluefinOrderResponse :=
  ⟨"o1", "filled", some (1/100000000), some 1⟩

/-- Final state of the one-tick C1 witness run. -/
def stC1W : TWAPState :=
  ⟨1, 99999999/100000000, 1/100000000,
    [⟨"o1", 0, 1/100, 1, .filled, some (1/100000000), some 1⟩],
    0, 100000, some 1⟩

theorem c1_accounting_invariant_witness :
    runTrace cfgC1 0 [(0, .placed 1 respC1W)] = .ok (true, stC1W) ∧
    |stC1W.executedAmount + stC1W.remainingAmount - cfgC1.totalAmount|
      ≤ 1/100000000 := by
  have heq : runTrace cfgC1 0 [(0, .placed 1 respC1W)] = .ok (true, stC1W) := by
    norm_num [runTrace, traceStep, executeOrder, calculateOrderSize,
      calculateNumberOfOrders, initState, round8, applyFill,
      updateAverageExecutionPrice, contributes, avgStep, min_def,
      cfgC1, respC1W, stC1W]
  refine ⟨heq, c1_accounting_invariant cfgC1 0 _ true stC1W ?_ heq⟩
  intro inp hinp
  simp only [List.mem_singleton] at hinp
  rw [hinp]
  intro f hf
  refine ⟨1, ?_⟩
  simp only [respC1W, Option.some.injEq] at hf
  rw [← hf]
  norm_num

/-! ## Claim C10: statuses the engine assigns -/

/-- C10: every record in the orders history of any reachable state has
status `pending` or `filled` — the engine never assigns the declared
statuses written p-a-r-t-i-a-l or `failed`; a placement response with any
status string other than `"filled"` is recorded as `pending`. -/
theorem c10_status_pending_or_filled (cfg : TWAPConfig) (t0 : ℚ)
    (inputs : List (ℚ × GatewayOutcome)) (b : Bool) (st : TWAPState)
    (h : runTrace cfg t0 inputs = .ok (b, st)) :
    ∀ o ∈ st.orders,
      o.status = OrderStatus.pending ∨ o.status = OrderStatus.filled :=
  foldl_traceStep_statusOk cfg inputs true (initState cfg t0) b st
    (fun o ho => absurd ho (List.not_mem_nil o)) h

/-- Config for the C10 witness. -/
def cfgC10 : TWAPConfig := ⟨"ALKIMI/USDC", 1, 100, 1, 0, 1/1000, 1⟩

/-- A response whose status string is the one written p-a-r-t-i-a-l: the
engine records it as `pending`. -/
def respC10 : BluefinOrderResponse := ⟨"o1", "partial", none, none⟩

/-- The record created by the C10 witness tick. -/
def recC10 : OrderExecution := ⟨"o1", 0, 1/100, 1, .pending, none, none⟩

/-- Final state of the C10 witness run. -/
def stC10W : TWAPState := ⟨1, 99/100, 1/100, [recC10], 0, 100000, none⟩

theorem c10_status_pending_or_filled_witness :
    runTrace cfgC10 0 [(0, .placed 1 respC10)] = .ok (true, stC10W) ∧
    (recC10.status = OrderStatus.pending ∨
      recC10.status = OrderStatus.filled) := by
  have heq : runTrace cfgC10 0 [(0, .placed 1 respC10)]
      = .ok (true, stC10W) := by
    norm_num [runTrace, traceStep, executeOrder, calculateOrderSize,
      calculateNumberOfOrders, initState, round8, applyFill,
      updateAverageExecutionPrice, contributes, avgStep, min_def,
      cfgC10, respC10, stC10W, recC10]
    exact fun h => absurd h (by decide)
  refine ⟨heq, ?_⟩
  exact c10_status_pending_or_filled cfgC10 0 [(0, .placed 1 respC10)] true
    stC10W heq recC10 (by simp [stC10W])

/-! ## Claim C2: the average execution price -/

/-- The imperative totals loop computes the two sums, for records whose
optional fields are both present. -/
theorem foldl_avgStep (l : List OrderExecution)
    (h : ∀ o ∈ l, o.filledSize.isSome ∧ o.averagePrice.isSome) (acc : ℚ × ℚ) :
    l.foldl avgStep acc
      = (acc.1 + (l.map fun o => o.filledSize.getD 0 * o.averagePrice.getD 0).sum,
         acc.2 + (l.map fun o => o.filledSize.getD 0).sum) := by
  induction l generalizing acc with
  | nil => simp
  | cons o t ih =>
    obtain ⟨hf, hp⟩ := h o (List.mem_cons_self o t)
    obtain ⟨f, hfv⟩ := Option.isSome_iff_exists.mp hf
    obtain ⟨p, hpv⟩ := Option.isSome_iff_exists.mp hp
    rw [List.foldl_cons, List.map_cons, List.map_cons, List.sum_cons,
      List.sum_cons, ih (fun o2 ho2 => h o2 (List.mem_cons_of_mem o ho2))]
    simp only [avgStep, hfv, hpv, Option.getD_some]
    rw [Prod.mk.injEq]
    constructor
    · ring
    · ring

/-- Records passing the source filter have both optional fields. -/
theorem contributes_fields {o : OrderExecution} (h : contributes o = true) :
    o.filledSize.isSome ∧ o.averagePrice.isSome := by
  simp only [contributes, Bool.and_eq_true] at h
  exact ⟨h.1.2, h.2⟩

/-- Records passing the source filter have status `filled`. -/
theorem contributes_filled {o : OrderExecution} (h : contributes o = true) :
    o.status = OrderStatus.filled := by
  simp only [contributes, Bool.and_eq_true, beq_iff_eq] at h
  exact h.1.1

/-- C2, amended.  After the update, `averageExecutionPrice` is the
`toFixed(8)` size-weighted mean of `averagePrice` over exactly the records
with status `filled` **that also carry a `filledSize` and an
`averagePrice`** (whenever that set is non-empty with positive total size);
non-filled records never contribute, but a filled record missing either
optional field is excluded from the mean (see the counterexample). -/
theorem c2_average_is_weighted_mean (st : TWAPState)
    (hne : (st.orders.filter contributes).isEmpty = false)
    (hpos : 0 <
      ((st.orders.filter contributes).map fun o => o.filledSize.getD 0).sum) :
    (updateAverageExecutionPrice st).averageExecutionPrice
      = some (round8 (weightedAveragePrice (st.orders.filter contributes)))
    ∧ ∀ o ∈ st.orders.filter contributes, o.status = OrderStatus.filled := by
  have hall : ∀ o ∈ st.orders.filter contributes,
      o.filledSize.isSome ∧ o.averagePrice.isSome :=
    fun o ho => contributes_fields (List.of_mem_filter ho)
  constructor
  · unfold updateAverageExecutionPrice
    dsimp only
    rw [if_neg (by rw [hne]; exact Bool.false_ne_true)]
    rw [foldl_avgStep (st.orders.filter contributes) hall (0, 0)]
    dsimp only
    rw [zero_add, zero_add, if_pos hpos]
    rfl
  · exact fun o ho => contributes_filled (List.of_mem_filter ho)

/-- A fully-populated filled record. -/
def oC2A : OrderExecution := ⟨"a", 0, 2, 10, .filled, some 2, some 10⟩

/-- A record with status `filled` but no venue-reported fields. -/
def oC2B : OrderExecution := ⟨"b", 0, 3, 10, .filled, none, none⟩

/-- A state holding both records. -/
def stC2 : TWAPState := ⟨10, 5, 5, [oC2A, oC2B], 0, 1000, none⟩

/-- C2, counterexample.  The claim says *no* filled record is excluded from
the mean.  `oC2B` has status `filled` yet the source filter drops it (its
optional fields are absent), so the computed average `10` is taken over
`[oC2A]` alone — a filled record is excluded. -/
theorem c2_filled_record_excluded_cex :
    oC2B ∈ stC2.orders ∧ oC2B.status = OrderStatus.filled ∧
    stC2.orders.filter contributes = [oC2A] ∧
    (updateAverageExecutionPrice stC2).averageExecutionPrice = some 10 := by
  refine ⟨by simp [stC2], rfl, by simp [stC2, oC2A, oC2B, contributes], ?_⟩
  norm_num [updateAverageExecutionPrice, contributes, avgStep, stC2,
    oC2A, oC2B, round8]

/-- State for the C2 witness: one populated filled record. -/
def stC2W : TWAPState := ⟨10, 8, 2, [oC2A], 0, 1000, none⟩

theorem c2_average_is_weighted_mean_witness :
    (stC2W.orders.filter contributes).isEmpty = false ∧
    (0 < ((stC2W.orders.filter contributes).map
      fun o => o.filledSize.getD 0).sum) ∧
    (updateAverageExecutionPrice stC2W).averageExecutionPrice
      = some (round8 (weightedAveragePrice (stC2W.orders.filter contributes))) := by
  have h1 : (stC2W.orders.filter contributes).isEmpty = false := by
    simp [stC2W, oC2A, contributes]
  have h2 : 0 < ((stC2W.orders.filter contributes).map
      fun o => o.filledSize.getD 0).sum := by
    norm_num [stC2W, oC2A, contributes]
  exact ⟨h1, h2, (c2_average_is_weighted_mean stC2W h1 h2).1⟩

/-! ## Claim C7: the nominal per-order size -/

/-- C7: under a valid config the nominal size calculation never throws and
equals the spec's formula — `minOrderSize` when the raw quotient
`totalAmount / floor(duration/interval)` is below it, `maxOrderSize` when
above it, and otherwise the quotient rounded to 8 fractional digits.  It is
a pure function of the immutable config, hence identical on every tick. -/
theorem c7_nominal_order_size (cfg : TWAPConfig) (h : validConfig cfg) :
    calculateOrderSize cfg = .ok (specNominalSize cfg) :=
  calculateOrderSize_ok cfg h

/-- Config for the C7 witness (the spec's worked example: 12 orders of
~83.33333333). -/
def cfgC7 : TWAPConfig := ⟨"ALKIMI/USDC", 1000, 3600, 300, 1/100, 10, 100⟩

theorem c7_nominal_order_size_witness :
    validConfig cfgC7 ∧
    calculateOrderSize cfgC7 = .ok (8333333333/100000000) := by
  have hv : validConfig cfgC7 := by norm_num [validConfig, cfgC7]
  refine ⟨hv, ?_⟩
  rw [c7_nominal_order_size cfgC7 hv]
  norm_num [specNominalSize, round8, cfgC7]

/-! ## Claim C6: the gateway retry policy -/

/-- Whatever the attempt outcomes, the wrapper sleeps according to the
bounded backoff schedule: no sleeps, one 1000 ms sleep, or 1000 ms then
2000 ms — in particular at most 3 attempts are made. -/
theorem retry_sleeps_shape {α : Type} (fn : ℕ → Except String α) :
    (executeWithRetry fn).2 = [] ∨ (executeWithRetry fn).2 = [1000] ∨
      (executeWithRetry fn).2 = [1000, 2000] := by
  cases h0 : fn 0 with
  | ok v =>
    left
    simp [executeWithRetry, maxRetries, retryGo, h0]
  | error e0 =>
    by_cases hr0 : isRetryableError e0 = false
    · left
      simp [executeWithRetry, maxRetries, retryGo, h0, hr0]
    · rw [Bool.not_eq_false] at hr0
      cases h1 : fn 1 with
      | ok v =>
        right; left
        simp [executeWithRetry, maxRetries, retryGo, h0, h1, hr0, retryDelay]
      | error e1 =>
        by_cases hr1 : isRetryableError e1 = false
        · right; left
          simp [executeWithRetry, maxRetries, retryGo, h0, h1, hr0, hr1,
            retryDelay]
        · rw [Bool.not_eq_false] at hr1
          right; right
          cases h2 : fn 2 with
          | ok v =>
            simp [executeWithRetry, maxRetries, retryGo, h0, h1, h2, hr0,
              hr1, retryDelay]
          | error e2 =>
            simp [executeWithRetry, maxRetries, retryGo, h0, h1, h2, hr0,
              hr1, retryDelay]

/-- Two retryable failures followed by a success return the success with
backoff sleeps of 1000 ms then 2000 ms. -/
theorem retry_succeeds_third {α : Type} (fn : ℕ → Except String α) (v : α)
    (e1 e2 : String)
    (h0 : fn 0 = .error e1) (h1 : fn 1 = .error e2) (h2 : fn 2 = .ok v)
    (hr1 : isRetryableError e1 = true) (hr2 : isRetryableError e2 = true) :
    executeWithRetry fn = (.ok v, [1000, 2000]) := by
  simp [executeWithRetry, maxRetries, retryGo, h0, h1, h2, hr1, hr2,
    retryDelay]

/-- A non-retryable first failure propagates immediately with no sleep. -/
theorem retry_fail_fast {α : Type} (fn : ℕ → Except String α) (e : String)
    (h0 : fn 0 = .error e) (hr : isRetryableError e = false) :
    executeWithRetry fn = (.error e, []) := by
  simp [executeWithRetry, maxRetries, retryGo, h0, hr]

/-- C6: the retry wrapper makes at most 3 attempts with backoff 1000 ms then
2000 ms; a call failing with retryable errors on the first two attempts and
succeeding on the third returns the success without surfacing an error; a
call failing with a non-retryable error on the first attempt propagates it
immediately without sleeping. -/
theorem c6_retry_policy :
    (∀ (α : Type) (fn : ℕ → Except String α),
      (executeWithRetry fn).2 = [] ∨ (executeWithRetry fn).2 = [1000] ∨
        (executeWithRetry fn).2 = [1000, 2000]) ∧
    (∀ (α : Type) (fn : ℕ → Except String α) (v : α) (e1 e2 : String),
      fn 0 = .error e1 → fn 1 = .error e2 → fn 2 = .ok v →
      isRetryableError e1 = true → isRetryableError e2 = true →
      executeWithRetry fn = (.ok v, [1000, 2000])) ∧
    (∀ (α : Type) (fn : ℕ → Except String α) (e : String),
      fn 0 = .error e → isRetryableError e = false →
      executeWithRetry fn = (.error e, [])) :=
  ⟨fun _ fn => retry_sleeps_shape fn,
   fun _ fn v e1 e2 h0 h1 h2 hr1 hr2 =>
     retry_succeeds_third fn v e1 e2 h0 h1 h2 hr1 hr2,
   fun _ fn e h0 hr => retry_fail_fast fn e h0 hr⟩

/-- Wrapped call for the C6 witness: two transient network failures, then
success. -/
def fnC6 : ℕ → Except String ℚ :=
  fun i => if i < 2 then .error ("network down") else .ok 42

/-- Wrapped call for the C6 witness, non-retryable failure. -/
def fnC6b : ℕ → Except String ℚ :=
  fun _ => .error ("insufficient balance")

theorem c6_retry_policy_witness :
    isRetryableError "network down" = true ∧
    executeWithRetry fnC6 = (.ok 42, [1000, 2000]) ∧
    isRetryableError "insufficient balance" = false ∧
    executeWithRetry fnC6b = (.error ("insufficient balance"), []) := by
  refine ⟨by decide, ?_, by decide, ?_⟩
  · exact (c6_retry_policy).2.1 ℚ fnC6 42 "network down" "network down"
      rfl rfl rfl (by decide) (by decide)
  · exact (c6_retry_policy).2.2 ℚ fnC6b "insufficient balance" rfl (by decide)

/-! ## Claim C8: venue decimal conversion -/

/-- C8: `toBluefinAmount` rejects non-numeric (`none`) and negative inputs
and accepts every non-negative numeric input, producing the 10^18-scaled
floor; `fromBluefinAmount` divides by the same scale, so the round trip
recovers the input up to one fixed-point quantum (10^-18) — the idealized
counterpart of "up to float precision". -/
theorem c8_bluefin_conversion :
    toBluefinAmount none = .error ("Invalid amount") ∧
    (∀ q : ℚ, q < 0 → toBluefinAmount (some q) = .error ("Invalid amount")) ∧
    (∀ q : ℚ, 0 ≤ q →
      toBluefinAmount (some q) = .ok ⌊q * (DECIMAL_MULTIPLIER : ℚ)⌋ ∧
      q - 1 / (DECIMAL_MULTIPLIER : ℚ)
        < fromBluefinAmount ⌊q * (DECIMAL_MULTIPLIER : ℚ)⌋ ∧
      fromBluefinAmount ⌊q * (DECIMAL_MULTIPLIER : ℚ)⌋ ≤ q) := by
  have hM : (0 : ℚ) < (DECIMAL_MULTIPLIER : ℚ) := by
    norm_num [DECIMAL_MULTIPLIER]
  refine ⟨rfl, fun q hq => by simp [toBluefinAmount, hq], fun q hq => ?_⟩
  have hfl : (⌊q * (DECIMAL_MULTIPLIER : ℚ)⌋ : ℚ) ≤ q * (DECIMAL_MULTIPLIER : ℚ) :=
    Int.floor_le _
  have hfg : q * (DECIMAL_MULTIPLIER : ℚ) - 1 < (⌊q * (DECIMAL_MULTIPLIER : ℚ)⌋ : ℚ) :=
    Int.sub_one_lt_floor _
  refine ⟨by simp [toBluefinAmount, not_lt.mpr hq], ?_, ?_⟩
  · unfold fromBluefinAmount
    rw [lt_div_iff₀ hM]
    have heq : (q - 1 / (DECIMAL_MULTIPLIER : ℚ)) * (DECIMAL_MULTIPLIER : ℚ)
        = q * (DECIMAL_MULTIPLIER : ℚ) - 1 := by
      field_simp
    rw [heq]
    exact hfg
  · unfold fromBluefinAmount
    rw [div_le_iff₀ hM]
    exact hfl

theorem c8_bluefin_conversion_witness :
    toBluefinAmount none = .error ("Invalid amount") ∧
    toBluefinAmount (some (-1)) = .error ("Invalid amount") ∧
    toBluefinAmount (some (3/2)) = .ok 1500000000000000000 ∧
    fromBluefinAmount 1500000000000000000 = 3/2 := by
  refine ⟨(c8_bluefin_conversion).1,
    (c8_bluefin_conversion).2.1 (-1) (by norm_num), ?_, ?_⟩
  · have h := ((c8_bluefin_conversion).2.2 (3/2) (by norm_num)).1
    rw [h]
    norm_num [DECIMAL_MULTIPLIER]
  · norm_num [fromBluefinAmount, DECIMAL_MULTIPLIER]

/-! ## Claim C9: `getState` snapshots -/

/-- C9, amended.  `getState` returns a *shallow* copy: the record itself is
a fresh object whose scalar fields equal the original's, but the `orders`
field is the same array reference, so an engine-side `push` through the
original reference is observable through any previously returned snapshot
(and vice versa: a push through the snapshot's reference mutates the
engine's history). -/
theorem c9_getState_shallow_copy (s : TWAPStateRef) (h : OrdersHeap)
    (o : OrderExecution) :
    getStateShallow s = s ∧
    (getStateShallow s).ordersRef = s.ordersRef ∧
    readOrders (pushOrder h s.ordersRef o) (getStateShallow s).ordersRef
      = readOrders h s.ordersRef ++ [o] := by
  refine ⟨rfl, rfl, ?_⟩
  unfold getStateShallow readOrders pushOrder
  exact Function.update_same s.ordersRef (h s.ordersRef ++ [o]) h

/-- An empty heap with one allocated (empty) orders array at reference 0. -/
def heapC9 : OrdersHeap := fun _ => []

/-- The engine-side state for the C9 counterexample. -/
def stC9 : TWAPStateRef := ⟨1, 1, 0, 0, 0, 100000, none⟩

/-- A record pushed after the snapshot was taken. -/
def oC9 : OrderExecution := ⟨"x", 0, 1, 1, .pending, none, none⟩

/-- C9, counterexample.  The claim says a snapshot is immutable and
independent: mutations through the snapshot must not reach the engine, and
later engine ticks must not change an earlier snapshot.  Both fail: pushing
through the snapshot's `orders` reference changes the engine's history from
`[]` to `[oC9]`, and pushing through the engine's reference changes what the
earlier snapshot reads. -/
theorem c9_getState_shared_orders_cex :
    readOrders heapC9 stC9.ordersRef = [] ∧
    readOrders (pushOrder heapC9 (getStateShallow stC9).ordersRef oC9)
      stC9.ordersRef = [oC9] ∧
    readOrders (pushOrder heapC9 stC9.ordersRef oC9)
      (getStateShallow stC9).ordersRef = [oC9] := by
  refine ⟨rfl, ?_, ?_⟩
  · unfold readOrders pushOrder getStateShallow heapC9 stC9
    simp
  · unfold readOrders pushOrder getStateShallow heapC9 stC9
    simp

end BBBot
